import Mathlib

/-!
Verification development for the repotox repository: a shallow embedding of
the relation analyzer (src/lib/utils.ts, getCollectionForeignKeyRelations)
and of the cascading removal planner and executor
(src/lib/repo.ts, safeRemove and the confirm closure), together with
theorems settling the behavioural claims about them.
-/

namespace Repotox

/-! ## Constants (src/src/constants.ts) -/

def FOREIGN_KEY_BRAND_TYPE : String := "idFor"

def IGNORE_RELATION : String := "ignore-relation"

def USED_UUID_SYSTEM_COLLECTION : String := "__uuid"

/-! ## Schema data model (schematox schema shapes, as consumed by utils.ts)

A property schema is a tagged variant over boolean, literal, number, string,
array and union, optionally carrying an `optional` flag, a `description`
string and, on scalar shapes, a brand pair `(brandType, brand)`.
-/

inductive ScalarTy where
  | boolean
  | literal
  | number
  | str
  deriving DecidableEq, Repr

structure ScalarSchema where
  ty : ScalarTy
  brand : Option (String × String)
  deriving DecidableEq, Repr

/-- Element shape of an array property: a scalar or a union of scalars. -/
inductive ArrayInner where
  | prim (s : ScalarSchema)
  | uni (members : List ScalarSchema)
  deriving DecidableEq, Repr

inductive PropBody where
  | prim (s : ScalarSchema)
  | arr (inner : ArrayInner)
  | uni (members : List ScalarSchema)
  deriving DecidableEq, Repr

structure PropSchema where
  body : PropBody
  optional : Bool
  description : Option String
  deriving DecidableEq, Repr

/-- The ordered field map of one object schema (the `of` of an object). -/
abbrev FieldMap := List (String × PropSchema)

/-- A collection model schema: an object shape or a union of object shapes. -/
inductive ModelSchema where
  | object (of : FieldMap)
  | union (of : List FieldMap)
  deriving DecidableEq, Repr

/-- The full set of declared collection schemas, keyed by collection name. -/
abbrev Models := List (String × ModelSchema)

/-! ## Relation descriptors (src/lib/types.ts) -/

inductive BilateralKind where
  | primaryToSecondary
  | secondaryToPrimary
  | primaryToPrimary
  deriving DecidableEq, Repr

inductive UnilateralKind where
  | primaryUnilateral
  | secondaryUnilateral
  deriving DecidableEq, Repr

inductive BilateralCard where
  | oneToOne
  | oneToMany
  | manyToOne
  | manyToMany
  deriving DecidableEq, Repr

inductive UnilateralCard where
  | one
  | many
  deriving DecidableEq, Repr

structure FieldRelationBilateral where
  dependencyKind : BilateralKind
  cardinalityType : BilateralCard
  sourceCollectionName : String
  sourceCollectionFieldKey : String
  targetCollectionName : String
  targetCollectionFieldKey : String
  deriving DecidableEq, Repr

structure FieldRelationUnilateral where
  dependencyKind : UnilateralKind
  cardinalityType : UnilateralCard
  sourceCollectionName : String
  sourceCollectionFieldKey : String
  targetCollectionName : String
  deriving DecidableEq, Repr

inductive FieldRelation where
  | unilateral (r : FieldRelationUnilateral)
  | bilateral (r : FieldRelationBilateral)
  deriving DecidableEq, Repr

/-! ## Configuration errors raised by the analyzer (ERROR of constants.ts
plus the inline throw sites of utils.ts); each constructor carries the
names interpolated into the corresponding message string. -/

inductive RepoError where
  | noIdField (brand : String)
  | invalidForeignKeyBrandTypeUsage (collectionName sourceFieldKey : String)
  | secondaryToSecondaryRelationIsForbidden (sourceBrand sourceKey : String)
  | invalidIdBrand
  | invalidBrandReferenceNoSuchModel (collectionName sourceFieldKey : String)
  | forbiddenRecursiveRelation (collectionName sourceFieldKey : String)
  | noUserDefinedRelation (targetBrand sourceBrand sourceKey : String)
  | missingModel (collectionName : String)
  deriving DecidableEq, Repr

/-! ## Association-list lookups (JS object key access) -/

def lookupModel : Models → String → Option ModelSchema
  | [], _ => none
  | (name, schema) :: rest, key =>
      if name = key then some schema else lookupModel rest key

def lookupProp : FieldMap → String → Option PropSchema
  | [], _ => none
  | (name, p) :: rest, key =>
      if name = key then some p else lookupProp rest key

/-- The list of object variants of a model schema: the schema itself for an
object shape, the member shapes for a union (utils.ts schemaUnion and
relatedSchemaUnion). -/
def variantsOf : ModelSchema → List FieldMap
  | .object of => [of]
  | .union ofs => ofs

/-! ## The relation analyzer (utils.ts getCollectionForeignKeyRelations) -/

/-- utils.ts extractForeignKeyBrand: returns the brand target when the brand
kind is the foreign-key marker; fails when such a brand sits on a
non-string-typed schema. -/
def extractForeignKeyBrand (collectionName sourceFieldKey : String)
    (s : ScalarSchema) : Except RepoError (Option String) :=
  match s.brand with
  | some (brandType, brand) =>
      if brandType = FOREIGN_KEY_BRAND_TYPE then
        if s.ty = ScalarTy.str then .ok (some brand)
        else .error (.invalidForeignKeyBrandTypeUsage collectionName sourceFieldKey)
      else .ok none
  | none => .ok none

/-- The bilateral optionality table of utils.ts: source optional and target
optional select the dependency kind; both required is forbidden. -/
def mkBilateralRelation (collectionName sourceFieldKey targetCollectionName
    targetCollectionFieldKey : String) (cardinalityType : BilateralCard)
    (sourceKeyOptional targetKeyOptional : Bool) :
    Except RepoError FieldRelation :=
  if sourceKeyOptional && targetKeyOptional then
    .ok (.bilateral ⟨.primaryToPrimary, cardinalityType, collectionName,
      sourceFieldKey, targetCollectionName, targetCollectionFieldKey⟩)
  else if sourceKeyOptional && !targetKeyOptional then
    .ok (.bilateral ⟨.primaryToSecondary, cardinalityType, collectionName,
      sourceFieldKey, targetCollectionName, targetCollectionFieldKey⟩)
  else if !sourceKeyOptional && targetKeyOptional then
    .ok (.bilateral ⟨.secondaryToPrimary, cardinalityType, collectionName,
      sourceFieldKey, targetCollectionName, targetCollectionFieldKey⟩)
  else
    .error (.secondaryToSecondaryRelationIsForbidden collectionName sourceFieldKey)

/-- Classification of a branded scalar or array-of-scalar field against its
target schema: bilateral when the target object declares the conventional
reciprocal key, unilateral when it declares neither, nothing when the target
schema is missing or not an object shape. -/
def classifyBranded (models : Models) (collectionName sourceFieldKey : String)
    (sourceKeyOptional isArraySource : Bool) (targetCollectionName : String) :
    Except RepoError (List FieldRelation) :=
  let targetToOneKey := collectionName ++ "Id"
  let targetToManyKey := collectionName ++ "Ids"
  match lookupModel models targetCollectionName with
  | some (.object targetOf) =>
      match lookupProp targetOf targetToOneKey with
      | some targetPropertySchema =>
          (mkBilateralRelation collectionName sourceFieldKey targetCollectionName
            targetToOneKey (if isArraySource then .manyToOne else .oneToOne)
            sourceKeyOptional targetPropertySchema.optional).map (fun r => [r])
      | none =>
          match lookupProp targetOf targetToManyKey with
          | some targetPropertySchema =>
              (mkBilateralRelation collectionName sourceFieldKey targetCollectionName
                targetToManyKey (if isArraySource then .manyToMany else .oneToMany)
                sourceKeyOptional targetPropertySchema.optional).map (fun r => [r])
          | none =>
              .ok [.unilateral ⟨(if sourceKeyOptional then .primaryUnilateral
                  else .secondaryUnilateral),
                (if isArraySource then .many else .one),
                collectionName, sourceFieldKey, targetCollectionName⟩]
  | _ => .ok []

/-- Brand extraction over the members of an array-of-union field: brands are
pooled, no relations are emitted. -/
def poolUnionBrands (collectionName sourceFieldKey : String) :
    List ScalarSchema → Except RepoError (List String)
  | [] => .ok []
  | m :: rest =>
      match extractForeignKeyBrand collectionName sourceFieldKey m with
      | .error e => .error e
      | .ok b =>
          match poolUnionBrands collectionName sourceFieldKey rest with
          | .error e => .error e
          | .ok bs =>
              match b with
              | some brand => .ok (brand :: bs)
              | none => .ok bs

/-- A union-typed field: each branded member yields a unilateral relation
with cardinality one, and its brand is pooled. -/
def unionFieldRelations (collectionName sourceFieldKey : String)
    (sourceKeyOptional : Bool) :
    List ScalarSchema → Except RepoError (List FieldRelation × List String)
  | [] => .ok ([], [])
  | m :: rest =>
      match extractForeignKeyBrand collectionName sourceFieldKey m with
      | .error e => .error e
      | .ok b =>
          match unionFieldRelations collectionName sourceFieldKey
              sourceKeyOptional rest with
          | .error e => .error e
          | .ok (rels, pool) =>
              match b with
              | some relatedBrand =>
                  .ok (.unilateral ⟨(if sourceKeyOptional then .primaryUnilateral
                        else .secondaryUnilateral), .one,
                      collectionName, sourceFieldKey, relatedBrand⟩ :: rels,
                    relatedBrand :: pool)
              | none => .ok (rels, pool)

/-- The switch over the property type of a non-id field: the relations it
emits and the brand pool it accumulates. -/
def classifyField (models : Models) (collectionName sourceFieldKey : String)
    (propertySchema : PropSchema) :
    Except RepoError (List FieldRelation × List String) :=
  let sourceKeyOptional := propertySchema.optional
  match propertySchema.body with
  | .prim s =>
      match extractForeignKeyBrand collectionName sourceFieldKey s with
      | .error e => .error e
      | .ok none => .ok ([], [])
      | .ok (some targetCollectionName) =>
          match classifyBranded models collectionName sourceFieldKey
              sourceKeyOptional false targetCollectionName with
          | .error e => .error e
          | .ok rels => .ok (rels, [targetCollectionName])
  | .arr (.uni members) =>
      match poolUnionBrands collectionName sourceFieldKey members with
      | .error e => .error e
      | .ok pool => .ok ([], pool)
  | .arr (.prim s) =>
      match extractForeignKeyBrand collectionName sourceFieldKey s with
      | .error e => .error e
      | .ok none => .ok ([], [])
      | .ok (some targetCollectionName) =>
          match classifyBranded models collectionName sourceFieldKey
              sourceKeyOptional true targetCollectionName with
          | .error e => .error e
          | .ok rels => .ok (rels, [targetCollectionName])
  | .uni members =>
      unionFieldRelations collectionName sourceFieldKey sourceKeyOptional members

/-- The per-variant reciprocal-field check run for every pooled brand: the
first variant of the related schema declaring neither conventional
reciprocal key raises the orphan-relation error. -/
def checkVariantsHaveReciprocal (targetBrand sourceBrand sourceKey
    oneToOneKey oneToManyKey : String) :
    List FieldMap → Except RepoError Unit
  | [] => .ok ()
  | v :: rest =>
      if (lookupProp v oneToOneKey) = none ∧ (lookupProp v oneToManyKey) = none then
        .error (.noUserDefinedRelation targetBrand sourceBrand sourceKey)
      else
        checkVariantsHaveReciprocal targetBrand sourceBrand sourceKey
          oneToOneKey oneToManyKey rest

/-- The per-brand validation loop at the end of the field scan in utils.ts:
the (unreachable for non-id fields) id-brand guard, the undeclared-target
guard, the ignore-relation escape, the recursive self-relation guard, and
the orphan-relation guard. -/
def checkBrand (models : Models) (collectionName sourceFieldKey : String)
    (descr : Option String) (brand : String) : Except RepoError Unit :=
  if sourceFieldKey = "id" then
    if collectionName ≠ brand then .error .invalidIdBrand else .ok ()
  else
    match lookupModel models brand with
    | none => .error (.invalidBrandReferenceNoSuchModel collectionName sourceFieldKey)
    | some relatedSchema =>
        if descr = some IGNORE_RELATION then .ok ()
        else if brand = collectionName then
          .error (.forbiddenRecursiveRelation collectionName sourceFieldKey)
        else
          checkVariantsHaveReciprocal brand collectionName sourceFieldKey
            (collectionName ++ "Id") (collectionName ++ "Ids")
            (variantsOf relatedSchema)

def checkBrandsPool (models : Models) (collectionName sourceFieldKey : String)
    (descr : Option String) : List String → Except RepoError Unit
  | [] => .ok ()
  | b :: rest =>
      match checkBrand models collectionName sourceFieldKey descr b with
      | .error e => .error e
      | .ok _ =>
          checkBrandsPool models collectionName sourceFieldKey descr rest

/-- Processing of one non-id field: classify it, then validate every brand
it pooled. -/
def processField (models : Models) (collectionName sourceFieldKey : String)
    (p : PropSchema) : Except RepoError (List FieldRelation) :=
  match classifyField models collectionName sourceFieldKey p with
  | .error e => .error e
  | .ok (rels, pool) =>
      match checkBrandsPool models collectionName sourceFieldKey
          p.description pool with
      | .error e => .error e
      | .ok _ => .ok rels

/-- The field loop of one variant: fields named id are skipped. -/
def scanFields (models : Models) (collectionName : String) :
    FieldMap → Except RepoError (List FieldRelation)
  | [] => .ok []
  | (k, p) :: rest =>
      if k = "id" then scanFields models collectionName rest
      else
        match processField models collectionName k p with
        | .error e => .error e
        | .ok rels =>
            match scanFields models collectionName rest with
            | .error e => .error e
            | .ok more => .ok (rels ++ more)

def scanVariants (models : Models) (collectionName : String) :
    List FieldMap → Except RepoError (List FieldRelation)
  | [] => .ok []
  | v :: rest =>
      match scanFields models collectionName v with
      | .error e => .error e
      | .ok rels =>
          match scanVariants models collectionName rest with
          | .error e => .error e
          | .ok more => .ok (rels ++ more)

/-- The initial id-presence check: every variant of the collection schema
must declare an id field. -/
def checkIdPresence (collectionName : String) :
    List FieldMap → Except RepoError Unit
  | [] => .ok ()
  | v :: rest =>
      if (lookupProp v "id") = none then .error (.noIdField collectionName)
      else checkIdPresence collectionName rest

/-- utils.ts getCollectionForeignKeyRelations, restricted to its relation
output: the id-presence check followed by the per-variant field scan. -/
def getCollectionForeignKeyRelations (models : Models)
    (collectionName : String) : Except RepoError (List FieldRelation) :=
  match lookupModel models collectionName with
  | none => .error (.missingModel collectionName)
  | some schema =>
      match checkIdPresence collectionName (variantsOf schema) with
      | .error e => .error e
      | .ok _ => scanVariants models collectionName (variantsOf schema)

/-! ## Collection store model (the MongoDB-backed state repo.ts operates on)

A record is its id plus a field map whose values are strings or arrays of
strings (the shapes relevant to foreign keys); an absent field models an
undefined property. A store maps collection names to record lists.
-/

inductive Val where
  | str (s : String)
  | arr (ids : List String)
  deriving DecidableEq, Repr

structure Doc where
  id : String
  fields : List (String × Val)
  deriving DecidableEq, Repr

def lookupField : List (String × Val) → String → Option Val
  | [], _ => none
  | (name, v) :: rest, key =>
      if name = key then some v else lookupField rest key

/-- Property access on a record; the id is itself a string field. -/
def Doc.getField (r : Doc) (key : String) : Option Val :=
  if key = "id" then some (.str r.id) else lookupField r.fields key

/-- Removal of a property (the spread with the key set to undefined used by
the secondary-to-primary one-to-one update action). -/
def removeField (r : Doc) (key : String) : Doc :=
  ⟨r.id, r.fields.filter (fun kv => kv.1 ≠ key)⟩

/-- Overwrite of a property (the spread with the key set to a filtered array
used by the secondary-to-primary one-to-many update action). -/
def setField (r : Doc) (key : String) (v : Val) : Doc :=
  ⟨r.id, (key, v) :: r.fields.filter (fun kv => kv.1 ≠ key)⟩

abbrev Store := List (String × List Doc)

def lookupStore : Store → String → Option (List Doc)
  | [], _ => none
  | (name, docs) :: rest, key =>
      if name = key then some docs else lookupStore rest key

def storeCollection (store : Store) (collectionName : String) : List Doc :=
  (lookupStore store collectionName).getD []

/-- collection.find with a single scalar-equality predicate, the only filter
shape the planner issues (`get (\x7b id \x7d)` and the reciprocal-field fetch of
the primary-to-secondary branch). -/
def findRecords (store : Store) (collectionName key value : String) : List Doc :=
  (storeCollection store collectionName).filter
    (fun r => r.getField key = some (.str value))

def eraseFirstById : List Doc → String → List Doc
  | [], _ => []
  | d :: ds, id => if d.id = id then ds else d :: eraseFirstById ds id

def mapStoreCollection : Store → String → (List Doc → List Doc) → Store
  | [], _, _ => []
  | (name, docs) :: rest, coll, f =>
      if name = coll then (name, f docs) :: rest
      else (name, docs) :: mapStoreCollection rest coll f

/-- repo.ts remove: deleteOne on the collection followed by deleteOne on the
uuid system collection. -/
def removeRecord (store : Store) (collectionName id : String) : Store :=
  mapStoreCollection
    (mapStoreCollection store collectionName (eraseFirstById · id))
    USED_UUID_SYSTEM_COLLECTION (eraseFirstById · id)

/-- repo.ts put as invoked (fire-and-forget) by the deferred update actions:
replaceOne without upsert when the record exists; the rejection thrown for a
missing record is not awaited and therefore has no effect on confirm. -/
def replaceById : List Doc → Doc → List Doc
  | [], _ => []
  | d :: ds, newDoc => if d.id = newDoc.id then newDoc :: ds else d :: replaceById ds newDoc

def applyPut (store : Store) (collectionName : String) (newDoc : Doc) : Store :=
  if (findRecords store collectionName "id" newDoc.id).isEmpty then store
  else mapStoreCollection store collectionName (replaceById · newDoc)

/-! ## The cascading removal planner (repo.ts safeRemove) -/

abbrev MutationReport := String × String

/-- A deferred update action of the updateQueue: the collection to put into,
the rewritten record captured at planning time, and the mutation report the
action returns when executed. -/
structure UpdateAction where
  collectionName : String
  newDoc : Doc
  feedback : MutationReport
  deriving DecidableEq, Repr

/-- The plan a safeRemove call resolves with: its staged reports plus the
deferred confirmation queue (child plans) and update queue its confirm
closure captured. The source represents empty staged lists as undefined;
callers must treat absence and emptiness as equivalent, and the model uses
the empty list for both. -/
inductive Plan where
  | mk (collectionName rootId : String)
      (stagedForRemove stagedForUpdate : List MutationReport)
      (confirmQueue : List Plan)
      (updateQueue : List UpdateAction)

def Plan.collectionName : Plan → String
  | .mk c _ _ _ _ _ => c

def Plan.rootId : Plan → String
  | .mk _ i _ _ _ _ => i

def Plan.stagedForRemove : Plan → List MutationReport
  | .mk _ _ sr _ _ _ => sr

def Plan.stagedForUpdate : Plan → List MutationReport
  | .mk _ _ _ su _ _ => su

def Plan.confirmQueue : Plan → List Plan
  | .mk _ _ _ _ q _ => q

def Plan.updateQueue : Plan → List UpdateAction
  | .mk _ _ _ _ _ u => u

/-- The relation graph the planner walks: the analyzer output per declared
collection. -/
abbrev RelGraph := List (String × List FieldRelation)

def lookupGraph : RelGraph → String → Option (List FieldRelation)
  | [], _ => none
  | (name, rels) :: rest, key =>
      if name = key then some rels else lookupGraph rest key

/-- JavaScript String.prototype.includes: substring containment, reached when
the reciprocal field of a one-to-many secondary-to-primary relation holds a
string instead of an array. -/
def charsLeadWith : List Char → List Char → Bool
  | [], _ => true
  | _ :: _, [] => false
  | n :: ns, h :: hs => if n = h then charsLeadWith ns hs else false

def charsOccurIn (needle : List Char) : List Char → Bool
  | [] => charsLeadWith needle []
  | h :: hs => if charsLeadWith needle (h :: hs) then true else charsOccurIn needle hs

def jsIncludes (hay needle : String) : Bool :=
  charsOccurIn needle.toList hay.toList

def bilateralCardStr : BilateralCard → String
  | .oneToOne => "one-to-one"
  | .oneToMany => "one-to-many"
  | .manyToOne => "many-to-one"
  | .manyToMany => "many-to-many"

def unilateralKindStr : UnilateralKind → String
  | .primaryUnilateral => "primary-unilateral"
  | .secondaryUnilateral => "secondary-unilateral"

/-- The mutable accumulators of one safeRemove invocation. -/
structure PlanAcc where
  stagedForRemove : List MutationReport
  stagedForUpdate : List MutationReport
  confirmQueue : List Plan
  updateQueue : List UpdateAction

/-- The record loop of the primary-to-secondary branch: stage each fetched
record, plan its removal recursively, queue the child confirmation and merge
the child staged removals (child staged updates are not merged). -/
def planP2SRecords (recurse : Store → String → String → Except String (Plan × Store))
    (targetCollectionName : String) :
    List Doc → Store → PlanAcc → Except String (PlanAcc × Store)
  | [], store, acc => .ok (acc, store)
  | record :: rest, store, acc =>
      let acc1 : PlanAcc := { acc with
        stagedForRemove := acc.stagedForRemove ++ [(targetCollectionName, record.id)] }
      match recurse store targetCollectionName record.id with
      | .error e => .error e
      | .ok (deepRemove, store1) =>
          let acc2 : PlanAcc := { acc1 with
            confirmQueue := acc1.confirmQueue ++ [deepRemove],
            stagedForRemove := acc1.stagedForRemove ++ deepRemove.stagedForRemove }
          planP2SRecords recurse targetCollectionName rest store1 acc2

/-- The dependencyKind dispatch of safeRemove for one relation of the root
collection. -/
def planRelation (graph : RelGraph)
    (recurse : Store → String → String → Except String (Plan × Store))
    (id : String) (sourceRecord : Doc) (relation : FieldRelation)
    (store : Store) (acc : PlanAcc) : Except String (PlanAcc × Store) :=
  match relation with
  | .bilateral r =>
      match r.dependencyKind with
      | .primaryToSecondary =>
          match lookupGraph graph r.targetCollectionName with
          | none => .error "Missing targetCollection"
          | some _ =>
              match r.cardinalityType with
              | .oneToOne | .manyToOne =>
                  planP2SRecords recurse r.targetCollectionName
                    (findRecords store r.targetCollectionName
                      r.targetCollectionFieldKey id) store acc
              | c => .error ("Not supported relation cardinality type: "
                  ++ bilateralCardStr c)
      | .secondaryToPrimary =>
          match lookupGraph graph r.targetCollectionName with
          | none => .error "Missing targetCollection"
          | some _ =>
              match r.cardinalityType with
              | .oneToOne =>
                  match sourceRecord.getField r.sourceCollectionFieldKey with
                  | none => .error "Missing targetId"
                  | some (.arr _) => .ok (acc, store)
                  | some (.str targetId) =>
                      match (findRecords store r.targetCollectionName
                          "id" targetId).head? with
                      | none => .ok (acc, store)
                      | some targetInitial =>
                          if targetInitial.getField r.targetCollectionFieldKey
                              = some (.str id) then
                            .ok ({ acc with
                              updateQueue := acc.updateQueue
                                ++ [⟨r.targetCollectionName,
                                    removeField targetInitial r.targetCollectionFieldKey,
                                    (r.targetCollectionName, targetId)⟩],
                              stagedForUpdate := acc.stagedForUpdate
                                ++ [(r.targetCollectionName, targetId)] }, store)
                          else .ok (acc, store)
              | .oneToMany =>
                  match sourceRecord.getField r.sourceCollectionFieldKey with
                  | none => .ok (acc, store)
                  | some (.arr _) => .ok (acc, store)
                  | some (.str targetId) =>
                      match (findRecords store r.targetCollectionName
                          "id" targetId).head? with
                      | none => .ok (acc, store)
                      | some targetInitial =>
                          let hasReference :=
                            match targetInitial.getField r.targetCollectionFieldKey with
                            | some (.arr xs) => decide (id ∈ xs)
                            | some (.str s) => jsIncludes s id
                            | none => false
                          if hasReference then
                            .ok ({ acc with
                              updateQueue := acc.updateQueue
                                ++ [⟨r.targetCollectionName,
                                    (match targetInitial.getField r.targetCollectionFieldKey with
                                     | some (.arr xs) =>
                                         setField targetInitial r.targetCollectionFieldKey
                                           (.arr (xs.filter (fun referenceId => referenceId ≠ id)))
                                     | _ => targetInitial),
                                    (r.targetCollectionName, targetId)⟩],
                              stagedForUpdate := acc.stagedForUpdate
                                ++ [(r.targetCollectionName, targetId)] }, store)
                          else .ok (acc, store)
              | .manyToOne | .manyToMany =>
                  -- The inner cardinality switch of the source has no case for
                  -- these values and no default: the relation is silently
                  -- skipped (unlike the loud default of the outer switch).
                  .ok (acc, store)
      | .primaryToPrimary =>
          .error "Not supported relation dependencyKind: primary-to-primary"
  | .unilateral r =>
      .error ("Not supported relation dependencyKind: "
        ++ unilateralKindStr r.dependencyKind)

def planRelations (graph : RelGraph)
    (recurse : Store → String → String → Except String (Plan × Store))
    (id : String) (sourceRecord : Doc) :
    List FieldRelation → Store → PlanAcc → Except String (PlanAcc × Store)
  | [], store, acc => .ok (acc, store)
  | relation :: rest, store, acc =>
      match planRelation graph recurse id sourceRecord relation store acc with
      | .error e => .error e
      | .ok (acc1, store1) =>
          planRelations graph recurse id sourceRecord rest store1 acc1

/-- repo.ts safeRemove: fetch the source record, walk the collection's
relations and resolve with the plan. Recursion depth is bounded by explicit
fuel (the source would not terminate on cyclic data either). -/
def safeRemove (graph : RelGraph) : Nat → Store → String → String →
    Except String (Plan × Store)
  | 0, _, _, _ => .error "Recursion limit reached"
  | fuel + 1, store, collectionName, id =>
      let relations := (lookupGraph graph collectionName).getD []
      match (findRecords store collectionName "id" id).head? with
      | none => .error "Missing source record"
      | some sourceRecord =>
          match planRelations graph (fun s c i => safeRemove graph fuel s c i)
              id sourceRecord relations store ⟨[], [], [], []⟩ with
          | .error e => .error e
          | .ok (acc, store1) =>
              .ok (.mk collectionName id acc.stagedForRemove acc.stagedForUpdate
                acc.confirmQueue acc.updateQueue, store1)

/-! ## The removal executor (the confirm closure of repo.ts) -/

structure SafeRemoveResult where
  removed : List MutationReport
  updated : Option (List MutationReport)
  deriving DecidableEq, Repr

structure ConfirmAcc where
  removed : List MutationReport
  updated : List MutationReport
  deriving DecidableEq, Repr

/-- The child-confirmation loop: accumulate each child result's removed and
(when present) updated lists. -/
def confirmChildren (recurse : Store → Plan → Option (SafeRemoveResult × Store)) :
    List Plan → Store → ConfirmAcc → Option (ConfirmAcc × Store)
  | [], store, acc => some (acc, store)
  | p :: rest, store, acc =>
      match recurse store p with
      | none => none
      | some (confirmed, store1) =>
          confirmChildren recurse rest store1
            { removed := acc.removed ++ confirmed.removed,
              updated := acc.updated ++ (confirmed.updated.getD []) }

/-- The update-queue loop: each deferred action fires its put and reports its
feedback entry. -/
def runUpdateQueue : List UpdateAction → Store → ConfirmAcc → (ConfirmAcc × Store)
  | [], store, acc => (acc, store)
  | u :: rest, store, acc =>
      runUpdateQueue rest (applyPut store u.collectionName u.newDoc)
        { acc with updated := acc.updated ++ [u.feedback] }

/-- The deduplication key of confirm: plain string concatenation of the
collection name and the record id. -/
def mrKey (x : MutationReport) : String := x.1 ++ x.2

def dedupeRemoved : List MutationReport → List String → List MutationReport
  | [], _ => []
  | x :: xs, seen =>
      if mrKey x ∈ seen then dedupeRemoved xs seen
      else x :: dedupeRemoved xs (mrKey x :: seen)

def dedupeUpdated : List MutationReport → List String → List String →
    List MutationReport
  | [], _, _ => []
  | x :: xs, removedKeys, seen =>
      if mrKey x ∈ seen ∨ mrKey x ∈ removedKeys then
        dedupeUpdated xs removedKeys seen
      else x :: dedupeUpdated xs removedKeys (mrKey x :: seen)

/-- The tail of confirm once the child confirmations have resolved: run the
update queue, delete the root record, append the root report, and
deduplicate; an empty deduplicated updated list is omitted from the result. -/
def confirmFinish (collectionName rootId : String) (updateQueue : List UpdateAction)
    (acc : ConfirmAcc) (store : Store) : SafeRemoveResult × Store :=
  let accStore := runUpdateQueue updateQueue store acc
  let store3 := removeRecord accStore.2 collectionName rootId
  let rawRemoved := accStore.1.removed ++ [(collectionName, rootId)]
  let removed := dedupeRemoved rawRemoved []
  let updated := dedupeUpdated accStore.1.updated (rawRemoved.map mrKey) []
  (⟨removed, if updated.isEmpty then none else some updated⟩, store3)

/-- The confirm closure: run every queued child confirmation depth-first,
then every queued update, delete the root record, append the root report,
and deduplicate. Fuel bounds the plan-tree depth. -/
def confirmPlan : Nat → Store → Plan → Option (SafeRemoveResult × Store)
  | 0, _, _ => none
  | fuel + 1, store, .mk collectionName rootId _ _ confirmQueue updateQueue =>
      match confirmChildren (fun s p => confirmPlan fuel s p)
          confirmQueue store ⟨[], []⟩ with
      | none => none
      | some (acc, store1) =>
          some (confirmFinish collectionName rootId updateQueue acc store1)

/-- Modelled from the spec words of claim C5 for comparison with the code:
deduplication of mutation reports by the composite pair key
(collection name, id), keeping the first occurrence. -/
def dedupeByPairSpec : List MutationReport → List MutationReport → List MutationReport
  | [], _ => []
  | x :: xs, seen =>
      if x ∈ seen then dedupeByPairSpec xs seen
      else x :: dedupeByPairSpec xs (x :: seen)

/-- The error message of a planner result, when it is an error. -/
def plannerError : Except String (Plan × Store) → Option String
  | .error e => some e
  | .ok _ => none

/-! ## Concrete configurations used by counterexamples and evaluations -/

/-- A diamond of primary-to-secondary one-to-one relations: the root
collection a cascades into b and into c, and each of those cascades into the
same d record; the reciprocal fields are unbranded, so every relation in the
graph is primary-to-secondary with a scalar reciprocal field. -/
def diamondGraph : RelGraph :=
  [("a", [.bilateral ⟨.primaryToSecondary, .oneToOne, "a", "bRef", "b", "aId"⟩,
          .bilateral ⟨.primaryToSecondary, .oneToOne, "a", "cRef", "c", "aId"⟩]),
   ("b", [.bilateral ⟨.primaryToSecondary, .oneToOne, "b", "dRef", "d", "bId"⟩]),
   ("c", [.bilateral ⟨.primaryToSecondary, .oneToOne, "c", "dRef", "d", "cId"⟩]),
   ("d", [])]

/-- The fully populated diamond data: d1 is reachable from a1 both through b1
and through c1. -/
def diamondStore : Store :=
  [("a", [⟨"a1", [("bRef", .str "b1"), ("cRef", .str "c1")]⟩]),
   ("b", [⟨"b1", [("aId", .str "a1"), ("dRef", .str "d1")]⟩]),
   ("c", [⟨"c1", [("aId", .str "a1"), ("dRef", .str "d1")]⟩]),
   ("d", [⟨"d1", [("bId", .str "b1"), ("cId", .str "c1")]⟩])]

/-- Two primary-to-secondary relations whose staged reports have colliding
concatenated keys: collection ab with record id c, and collection a with
record id bc, both concatenating to the string abc. -/
def collideGraph : RelGraph :=
  [("r", [.bilateral ⟨.primaryToSecondary, .oneToOne, "r", "f1", "ab", "rId"⟩,
          .bilateral ⟨.primaryToSecondary, .oneToOne, "r", "f2", "a", "rId"⟩]),
   ("ab", []), ("a", [])]

def collideStore : Store :=
  [("r", [⟨"r1", []⟩]),
   ("ab", [⟨"c", [("rId", .str "r1")]⟩]),
   ("a", [⟨"bc", [("rId", .str "r1")]⟩])]

/-- A secondary-to-primary relation with many-to-one cardinality, a
combination the planner has no case for. -/
def c4Graph : RelGraph :=
  [("s", [.bilateral ⟨.secondaryToPrimary, .manyToOne, "s", "tRefs", "t", "sId"⟩]),
   ("t", [])]

def c4Store : Store :=
  [("s", [⟨"s1", [("tRefs", .arr ["t1"])]⟩]),
   ("t", [⟨"t1", [("sId", .str "s1")]⟩])]

/-- A primary-to-secondary relation with one-to-many cardinality, a
combination the query-value dispatch rejects. -/
def c4GraphB : RelGraph :=
  [("s", [.bilateral ⟨.primaryToSecondary, .oneToMany, "s", "tRef", "t", "sIds"⟩]),
   ("t", [])]

def c4GraphC : RelGraph :=
  [("s", [.unilateral ⟨.primaryUnilateral, .one, "s", "tRef", "t"⟩]), ("t", [])]

def c4GraphD : RelGraph :=
  [("s", [.bilateral ⟨.primaryToPrimary, .oneToOne, "s", "tRef", "t", "sId"⟩]),
   ("t", [])]

/-- A collection whose id field carries a foreign-key brand naming a
different collection. -/
def c9Models : Models :=
  [("a", .object [("id", ⟨.prim ⟨.str, some ("idFor", "b")⟩, false, none⟩)]),
   ("b", .object [("id", ⟨.prim ⟨.str, some ("idFor", "b")⟩, false, none⟩)])]

/-- A collection with a self-referencing foreign-key field carrying the
ignore-relation description marker. -/
def c8Models : Models :=
  [("a", .object [("id", ⟨.prim ⟨.str, some ("idFor", "a")⟩, false, none⟩),
                  ("selfRef", ⟨.prim ⟨.str, some ("idFor", "a")⟩, false,
                    some "ignore-relation"⟩)])]

/-! ## Theorems -/

/-! ### Helper lemmas about the deduplication pass of confirm -/

theorem dedupeRemoved_key_nodup (xs : List MutationReport) :
    ∀ seen : List String, ((dedupeRemoved xs seen).map mrKey).Nodup ∧
      ∀ k ∈ (dedupeRemoved xs seen).map mrKey, k ∉ seen := by
  induction xs with
  | nil => intro seen; simp [dedupeRemoved]
  | cons x xs ih =>
      intro seen
      by_cases h : mrKey x ∈ seen
      · simpa [dedupeRemoved, h] using ih seen
      · have ih2 := ih (mrKey x :: seen)
        refine ⟨?_, ?_⟩
        · simp only [dedupeRemoved, if_neg h, List.map_cons, List.nodup_cons]
          exact ⟨fun hmem => by simpa using (ih2.2 _ hmem), ih2.1⟩
        · intro k hk
          simp only [dedupeRemoved, if_neg h, List.map_cons, List.mem_cons] at hk
          rcases hk with rfl | hk
          · exact h
          · exact fun hs => (ih2.2 _ hk) (List.mem_cons_of_mem _ hs)

theorem dedupeRemoved_subset (xs : List MutationReport) :
    ∀ seen : List String, dedupeRemoved xs seen ⊆ xs := by
  induction xs with
  | nil => intro seen; simp [dedupeRemoved]
  | cons x xs ih =>
      intro seen y hy
      by_cases h : mrKey x ∈ seen
      · simp only [dedupeRemoved, if_pos h] at hy
        exact List.mem_cons_of_mem _ (ih seen hy)
      · simp only [dedupeRemoved, if_neg h, List.mem_cons] at hy
        rcases hy with rfl | hy
        · exact List.mem_cons_self _ _
        · exact List.mem_cons_of_mem _ (ih _ hy)

theorem dedupeRemoved_key_mem (xs : List MutationReport) :
    ∀ (seen : List String) (k : String), k ∈ xs.map mrKey → k ∉ seen →
      k ∈ (dedupeRemoved xs seen).map mrKey := by
  induction xs with
  | nil => intro seen k hk; simp at hk
  | cons x xs ih =>
      intro seen k hk hns
      simp only [List.map_cons, List.mem_cons] at hk
      by_cases h : mrKey x ∈ seen
      · simp only [dedupeRemoved, if_pos h]
        rcases hk with rfl | hk
        · exact absurd h hns
        · exact ih seen k hk hns
      · simp only [dedupeRemoved, if_neg h, List.map_cons, List.mem_cons]
        rcases hk with rfl | hk
        · exact Or.inl rfl
        · by_cases hkx : k = mrKey x
          · exact Or.inl hkx
          · exact Or.inr (ih _ k hk (by simp [hkx, hns]))

theorem dedupeUpdated_props (xs : List MutationReport) :
    ∀ (removedKeys seen : List String),
      ((dedupeUpdated xs removedKeys seen).map mrKey).Nodup ∧
      ∀ x ∈ dedupeUpdated xs removedKeys seen,
        mrKey x ∉ removedKeys ∧ mrKey x ∉ seen := by
  induction xs with
  | nil => intro rk seen; simp [dedupeUpdated]
  | cons x xs ih =>
      intro rk seen
      by_cases h : mrKey x ∈ seen ∨ mrKey x ∈ rk
      · simpa [dedupeUpdated, h] using ih rk seen
      · have hn := not_or.mp h
        have ih2 := ih rk (mrKey x :: seen)
        refine ⟨?_, ?_⟩
        · simp only [dedupeUpdated, if_neg h, List.map_cons, List.nodup_cons]
          refine ⟨fun hmem => ?_, ih2.1⟩
          obtain ⟨y, hy, hyk⟩ := List.mem_map.mp hmem
          have hy2 := (ih2.2 y hy).2
          rw [hyk] at hy2
          exact hy2 (List.mem_cons_self _ _)
        · intro y hy
          simp only [dedupeUpdated, if_neg h, List.mem_cons] at hy
          rcases hy with rfl | hy
          · exact ⟨hn.2, hn.1⟩
          · have hy2 := ih2.2 _ hy
            exact ⟨hy2.1, fun hs => hy2.2 (List.mem_cons_of_mem _ hs)⟩

theorem runUpdateQueue_removed (uq : List UpdateAction) :
    ∀ (store : Store) (acc : ConfirmAcc),
      (runUpdateQueue uq store acc).1.removed = acc.removed := by
  induction uq with
  | nil => intro store acc; simp [runUpdateQueue]
  | cons u uq ih => intro store acc; simp [runUpdateQueue, ih]

/-- The shape of a successful confirm: the removed report is the
concatenated-key deduplication of the accumulated child removals followed by
the root entry, the updated report is the corresponding deduplication of the
accumulated updates with removed keys dropped and emptiness mapped to
absence, and the resulting store is the updated store with the root record
deleted. -/
theorem confirmPlan_succ_eq (fuel : Nat) (store : Store)
    (c rid : String) (sr su : List MutationReport) (cq : List Plan)
    (uq : List UpdateAction) (res : SafeRemoveResult) (store2 : Store)
    (h : confirmPlan (fuel + 1) store (.mk c rid sr su cq uq) = some (res, store2)) :
    ∃ acc store1,
      confirmChildren (fun s p => confirmPlan fuel s p) cq store ⟨[], []⟩
        = some (acc, store1)
      ∧ res.removed = dedupeRemoved (acc.removed ++ [(c, rid)]) []
      ∧ res.updated = (if (dedupeUpdated (runUpdateQueue uq store1 acc).1.updated
            ((acc.removed ++ [(c, rid)]).map mrKey) []).isEmpty then none
          else some (dedupeUpdated (runUpdateQueue uq store1 acc).1.updated
            ((acc.removed ++ [(c, rid)]).map mrKey) []))
      ∧ store2 = removeRecord (runUpdateQueue uq store1 acc).2 c rid := by
  simp only [confirmPlan] at h
  rcases hcc : confirmChildren (fun s p => confirmPlan fuel s p) cq store ⟨[], []⟩
    with _ | ⟨acc, store1⟩
  · rw [hcc] at h; simp at h
  · rw [hcc] at h
    simp only [Option.some.injEq] at h
    have hres : res = (confirmFinish c rid uq acc store1).1 := by rw [h]
    have hst : store2 = (confirmFinish c rid uq acc store1).2 := by rw [h]
    refine ⟨acc, store1, rfl, ?_, ?_, ?_⟩
    · rw [hres]
      simp [confirmFinish, runUpdateQueue_removed]
    · rw [hres]
      simp [confirmFinish, runUpdateQueue_removed]
    · rw [hst]
      simp [confirmFinish, runUpdateQueue_removed]

theorem confirmPlan_removed_key_nodup (fuel : Nat) (store : Store) (p : Plan)
    (res : SafeRemoveResult) (store2 : Store)
    (h : confirmPlan fuel store p = some (res, store2)) :
    (res.removed.map mrKey).Nodup := by
  cases fuel with
  | zero => simp [confirmPlan] at h
  | succ n =>
      cases p with
      | mk c rid sr su cq uq =>
          obtain ⟨acc, store1, _, hrem, _, _⟩ := confirmPlan_succ_eq n store c rid sr su cq uq res store2 h
          rw [hrem]
          exact (dedupeRemoved_key_nodup _ _).1

/-! ### Store preservation of the planner -/

theorem planP2SRecords_store
    (recurse : Store → String → String → Except String (Plan × Store))
    (hrec : ∀ st c i p s2, recurse st c i = .ok (p, s2) → s2 = st)
    (t : String) (records : List Doc) :
    ∀ (store : Store) (acc acc2 : PlanAcc) (store2 : Store),
      planP2SRecords recurse t records store acc = .ok (acc2, store2) →
      store2 = store := by
  induction records with
  | nil =>
      intro store acc acc2 store2 h
      simp only [planP2SRecords, Except.ok.injEq, Prod.mk.injEq] at h
      exact h.2.symm
  | cons record rest ih =>
      intro store acc acc2 store2 h
      simp only [planP2SRecords] at h
      cases hr : recurse store t record.id with
      | error e => rw [hr] at h; cases h
      | ok pr =>
          obtain ⟨deep, store1⟩ := pr
          rw [hr] at h
          rw [ih store1 _ acc2 store2 h]
          exact hrec store t record.id deep store1 hr

theorem planRelation_store (graph : RelGraph)
    (recurse : Store → String → String → Except String (Plan × Store))
    (hrec : ∀ st c i p s2, recurse st c i = .ok (p, s2) → s2 = st)
    (id : String) (sourceRecord : Doc) (relation : FieldRelation)
    (store : Store) (acc acc1 : PlanAcc) (store1 : Store)
    (h : planRelation graph recurse id sourceRecord relation store acc
      = .ok (acc1, store1)) :
    store1 = store := by
  cases relation with
  | unilateral r => simp [planRelation] at h
  | bilateral r =>
      simp only [planRelation] at h
      repeat' split at h
      all_goals
        first
        | exact planP2SRecords_store recurse hrec _ _ _ _ _ _ h
        | (simp only [Except.ok.injEq, Prod.mk.injEq] at h; exact h.2.symm)
        | cases h

theorem planRelations_store (graph : RelGraph)
    (recurse : Store → String → String → Except String (Plan × Store))
    (hrec : ∀ st c i p s2, recurse st c i = .ok (p, s2) → s2 = st)
    (id : String) (sourceRecord : Doc) (relations : List FieldRelation) :
    ∀ (store : Store) (acc acc1 : PlanAcc) (store1 : Store),
      planRelations graph recurse id sourceRecord relations store acc
        = .ok (acc1, store1) →
      store1 = store := by
  induction relations with
  | nil =>
      intro store acc acc1 store1 h
      simp only [planRelations, Except.ok.injEq, Prod.mk.injEq] at h
      exact h.2.symm
  | cons relation rest ih =>
      intro store acc acc1 store1 h
      simp only [planRelations] at h
      cases hr : planRelation graph recurse id sourceRecord relation store acc with
      | error e => rw [hr] at h; cases h
      | ok pr =>
          obtain ⟨accMid, storeMid⟩ := pr
          rw [hr] at h
          rw [ih storeMid accMid acc1 store1 h]
          exact planRelation_store graph recurse hrec id sourceRecord relation
            store acc accMid storeMid hr

/-- Claim C7: planning is side-effect-free. A safeRemove call that resolves
with a plan leaves the store exactly as it was: the planner only issues
reads, so discarding the plan without confirming performs no mutation. -/
theorem c7_theorem :
    ∀ (graph : RelGraph) (fuel : Nat) (store : Store) (c i : String)
      (plan : Plan) (store2 : Store),
      safeRemove graph fuel store c i = .ok (plan, store2) → store2 = store := by
  intro graph fuel
  induction fuel with
  | zero => intro store c i plan store2 h; simp [safeRemove] at h
  | succ n ih =>
      intro store c i plan store2 h
      simp only [safeRemove] at h
      split at h
      · cases h
      · rename_i srcRec hfind
        split at h
        · cases h
        · rename_i acc store1 heq
          simp only [Except.ok.injEq, Prod.mk.injEq] at h
          rw [← h.2]
          exact planRelations_store graph _
            (fun st c2 i2 p s2 hr => ih st c2 i2 p s2 hr) i srcRec _
            store ⟨[], [], [], []⟩ acc store1 heq

/-- Witness for the C7 theorem on the concrete diamond run. -/
theorem c7_theorem_witness :
    (safeRemove diamondGraph 10 diamondStore "a" "a1").toOption.map Prod.snd
      = some diamondStore := by
  cases hh : safeRemove diamondGraph 10 diamondStore "a" "a1" with
  | error e =>
      have hne : (safeRemove diamondGraph 10 diamondStore "a" "a1").toOption.isSome
          = true := by rfl
      rw [hh] at hne
      simp [Except.toOption] at hne
  | ok pr =>
      obtain ⟨plan, store2⟩ := pr
      have hst := c7_theorem diamondGraph 10 diamondStore "a" "a1" plan store2 hh
      rw [hst]
      rfl

/-- Claim C10: for a secondary-to-primary relation of cardinality
one-to-one, a root record whose own reference field is absent makes
safeRemove fail with the missing-target-id error; for the one-to-many
cardinality of the same kind the absent field does not throw and the
relation is skipped, yielding a plan with nothing staged and nothing
queued. -/
theorem c10_theorem :
    (∀ (graph : RelGraph) (fuel : Nat) (store : Store) (c i sk tgt tk : String)
        (trels : List FieldRelation) (srcRec : Doc),
      lookupGraph graph c
          = some [.bilateral ⟨.secondaryToPrimary, .oneToOne, c, sk, tgt, tk⟩] →
      lookupGraph graph tgt = some trels →
      (findRecords store c "id" i).head? = some srcRec →
      srcRec.getField sk = none →
      safeRemove graph (fuel + 1) store c i = .error "Missing targetId")
    ∧ (∀ (graph : RelGraph) (fuel : Nat) (store : Store) (c i sk tgt tk : String)
        (trels : List FieldRelation) (srcRec : Doc),
      lookupGraph graph c
          = some [.bilateral ⟨.secondaryToPrimary, .oneToMany, c, sk, tgt, tk⟩] →
      lookupGraph graph tgt = some trels →
      (findRecords store c "id" i).head? = some srcRec →
      srcRec.getField sk = none →
      safeRemove graph (fuel + 1) store c i
        = .ok (.mk c i [] [] [] [], store)) := by
  constructor
  · intro graph fuel store c i sk tgt tk trels srcRec hg ht hh hf
    simp only [safeRemove, hg, Option.getD_some, hh, planRelations, planRelation,
      ht, hf]
  · intro graph fuel store c i sk tgt tk trels srcRec hg ht hh hf
    simp only [safeRemove, hg, Option.getD_some, hh, planRelations, planRelation,
      ht, hf]

/-- Witness for the C10 theorem at a concrete graph and store. -/
theorem c10_theorem_witness :
    safeRemove [("c0", [.bilateral ⟨.secondaryToPrimary, .oneToOne, "c0", "tRef", "t0", "c0Id"⟩]), ("t0", [])]
        1 [("c0", [⟨"i1", []⟩]), ("t0", [])] "c0" "i1"
      = .error "Missing targetId"
    ∧ safeRemove [("c0", [.bilateral ⟨.secondaryToPrimary, .oneToMany, "c0", "tRef", "t0", "c0Ids"⟩]), ("t0", [])]
        1 [("c0", [⟨"i1", []⟩]), ("t0", [])] "c0" "i1"
      = .ok (.mk "c0" "i1" [] [] [] [], [("c0", [⟨"i1", []⟩]), ("t0", [])]) := by
  constructor
  · exact c10_theorem.1 _ 0 _ "c0" "i1" "tRef" "t0" "c0Id" [] ⟨"i1", []⟩
      rfl rfl rfl rfl
  · exact c10_theorem.2 _ 0 _ "c0" "i1" "tRef" "t0" "c0Ids" [] ⟨"i1", []⟩
      rfl rfl rfl rfl

/-- Claim C6: the staleness guard of the secondary-to-primary branch. When
the record referenced by the root record's own reference field exists but
its reciprocal field no longer carries the root id (scalar field differing
from the root id for one-to-one, array field not containing it for
one-to-many), safeRemove stages nothing for update and enqueues no update
action; when the reciprocal field does carry the root id, the target is
staged in stagedForUpdate and a clearing update action is enqueued. -/
theorem c6_theorem :
    (∀ (graph : RelGraph) (fuel : Nat) (store : Store) (c i sk tgt tk tid : String)
        (trels : List FieldRelation) (srcRec tRec : Doc),
      lookupGraph graph c
          = some [.bilateral ⟨.secondaryToPrimary, .oneToOne, c, sk, tgt, tk⟩] →
      lookupGraph graph tgt = some trels →
      (findRecords store c "id" i).head? = some srcRec →
      srcRec.getField sk = some (.str tid) →
      (findRecords store tgt "id" tid).head? = some tRec →
      tRec.getField tk ≠ some (.str i) →
      safeRemove graph (fuel + 1) store c i = .ok (.mk c i [] [] [] [], store))
    ∧ (∀ (graph : RelGraph) (fuel : Nat) (store : Store) (c i sk tgt tk tid : String)
        (trels : List FieldRelation) (srcRec tRec : Doc),
      lookupGraph graph c
          = some [.bilateral ⟨.secondaryToPrimary, .oneToOne, c, sk, tgt, tk⟩] →
      lookupGraph graph tgt = some trels →
      (findRecords store c "id" i).head? = some srcRec →
      srcRec.getField sk = some (.str tid) →
      (findRecords store tgt "id" tid).head? = some tRec →
      tRec.getField tk = some (.str i) →
      safeRemove graph (fuel + 1) store c i
        = .ok (.mk c i [] [(tgt, tid)] []
            [⟨tgt, removeField tRec tk, (tgt, tid)⟩], store))
    ∧ (∀ (graph : RelGraph) (fuel : Nat) (store : Store) (c i sk tgt tk tid : String)
        (xs : List String) (trels : List FieldRelation) (srcRec tRec : Doc),
      lookupGraph graph c
          = some [.bilateral ⟨.secondaryToPrimary, .oneToMany, c, sk, tgt, tk⟩] →
      lookupGraph graph tgt = some trels →
      (findRecords store c "id" i).head? = some srcRec →
      srcRec.getField sk = some (.str tid) →
      (findRecords store tgt "id" tid).head? = some tRec →
      tRec.getField tk = some (.arr xs) →
      i ∉ xs →
      safeRemove graph (fuel + 1) store c i = .ok (.mk c i [] [] [] [], store))
    ∧ (∀ (graph : RelGraph) (fuel : Nat) (store : Store) (c i sk tgt tk tid : String)
        (xs : List String) (trels : List FieldRelation) (srcRec tRec : Doc),
      lookupGraph graph c
          = some [.bilateral ⟨.secondaryToPrimary, .oneToMany, c, sk, tgt, tk⟩] →
      lookupGraph graph tgt = some trels →
      (findRecords store c "id" i).head? = some srcRec →
      srcRec.getField sk = some (.str tid) →
      (findRecords store tgt "id" tid).head? = some tRec →
      tRec.getField tk = some (.arr xs) →
      i ∈ xs →
      safeRemove graph (fuel + 1) store c i
        = .ok (.mk c i [] [(tgt, tid)] []
            [⟨tgt, setField tRec tk (.arr (xs.filter (fun rid => rid ≠ i))),
              (tgt, tid)⟩], store)) := by
  refine ⟨?_, ?_, ?_, ?_⟩
  · intro graph fuel store c i sk tgt tk tid trels srcRec tRec hg ht hh hf htf hne
    simp only [safeRemove, hg, Option.getD_some, hh, planRelations, planRelation,
      ht, hf, htf, if_neg hne]
  · intro graph fuel store c i sk tgt tk tid trels srcRec tRec hg ht hh hf htf heq
    simp only [safeRemove, hg, Option.getD_some, hh, planRelations, planRelation,
      ht, hf, htf, if_pos heq, List.nil_append]
  · intro graph fuel store c i sk tgt tk tid xs trels srcRec tRec hg ht hh hf htf harr hni
    simp only [safeRemove, hg, Option.getD_some, hh, planRelations, planRelation,
      ht, hf, htf, harr, decide_eq_true_eq]
    rw [if_neg hni]
  · intro graph fuel store c i sk tgt tk tid xs trels srcRec tRec hg ht hh hf htf harr hmem
    simp only [safeRemove, hg, Option.getD_some, hh, planRelations, planRelation,
      ht, hf, htf, harr, decide_eq_true_eq, List.nil_append]
    rw [if_pos hmem]

/-- Witness for the C6 theorem on concrete stale and live references. -/
theorem c6_theorem_witness :
    safeRemove [("c0", [.bilateral ⟨.secondaryToPrimary, .oneToOne, "c0", "tRef", "t0", "c0Id"⟩]), ("t0", [])]
        1 [("c0", [⟨"i1", [("tRef", .str "t1")]⟩]), ("t0", [⟨"t1", [("c0Id", .str "other")]⟩])] "c0" "i1"
      = .ok (.mk "c0" "i1" [] [] [] [],
          [("c0", [⟨"i1", [("tRef", .str "t1")]⟩]), ("t0", [⟨"t1", [("c0Id", .str "other")]⟩])])
    ∧ safeRemove [("c0", [.bilateral ⟨.secondaryToPrimary, .oneToOne, "c0", "tRef", "t0", "c0Id"⟩]), ("t0", [])]
        1 [("c0", [⟨"i1", [("tRef", .str "t1")]⟩]), ("t0", [⟨"t1", [("c0Id", .str "i1")]⟩])] "c0" "i1"
      = .ok (.mk "c0" "i1" [] [("t0", "t1")] []
          [⟨"t0", removeField ⟨"t1", [("c0Id", .str "i1")]⟩ "c0Id", ("t0", "t1")⟩],
          [("c0", [⟨"i1", [("tRef", .str "t1")]⟩]), ("t0", [⟨"t1", [("c0Id", .str "i1")]⟩])]) := by
  constructor
  · exact c6_theorem.1 _ 0 _ "c0" "i1" "tRef" "t0" "c0Id" "t1" []
      ⟨"i1", [("tRef", .str "t1")]⟩ ⟨"t1", [("c0Id", .str "other")]⟩
      rfl rfl rfl rfl rfl (by decide)
  · exact c6_theorem.2.1 _ 0 _ "c0" "i1" "tRef" "t0" "c0Id" "t1" []
      ⟨"i1", [("tRef", .str "t1")]⟩ ⟨"t1", [("c0Id", .str "i1")]⟩
      rfl rfl rfl rfl rfl rfl

/-- Claim C1, amended: safeRemove stages every record transitively
reachable from the root in stagedForRemove, but that staged list is not
deduplicated, so a record reached along two different paths appears once
per path; confirm deduplicates, so its removed report lists each reached
record (and the root) exactly once. In general the removed list of every
successful confirm has no duplicate entry, and on the diamond the staged
list is the reachable multiset with d1 twice while the confirmed removed
list holds each of the four reachable records exactly once. -/
theorem c1_theorem :
    (∀ (fuel : Nat) (store : Store) (p : Plan) (res : SafeRemoveResult)
        (store2 : Store),
      confirmPlan fuel store p = some (res, store2) → res.removed.Nodup)
    ∧ (safeRemove diamondGraph 10 diamondStore "a" "a1").toOption.map
        (fun x => x.1.stagedForRemove)
      = some [("b", "b1"), ("d", "d1"), ("c", "c1"), ("d", "d1")]
    ∧ ((safeRemove diamondGraph 10 diamondStore "a" "a1").toOption.bind
        (fun x => confirmPlan 10 x.2 x.1)).map (fun y => y.1.removed)
      = some [("d", "d1"), ("b", "b1"), ("c", "c1"), ("a", "a1")]
    ∧ ([("d", "d1"), ("b", "b1"), ("c", "c1"), ("a", "a1")]
        : List MutationReport).Nodup := by
  refine ⟨?_, rfl, rfl, by decide⟩
  intro fuel store p res store2 h
  exact List.Nodup.of_map mrKey (confirmPlan_removed_key_nodup fuel store p res store2 h)

/-- Witness for the hypothesis-carrying part of the C1 theorem at a
concrete confirmed plan. -/
theorem c1_theorem_witness :
    ([("x", "x1")] : List MutationReport).Nodup := by
  have h : confirmPlan 2 [] (Plan.mk "x" "x1" [] [] [] [])
      = some (⟨[("x", "x1")], none⟩, []) := by rfl
  exact c1_theorem.1 2 [] _ _ _ h

/-- Claim C5, amended: confirm returns the accumulated child removals
followed by the root entry, deduplicated keeping the first occurrence of
each concatenated string key collectionName ++ id (not of each composite
pair, so distinct pairs with colliding concatenations are conflated); the
updated list is deduplicated the same way with entries whose key occurs
among the removed keys dropped; an empty deduplicated updated list is
reported as an absent updated key; a plan with zero staged changes confirms
to exactly the root removal with no updated key. -/
theorem c5_theorem :
    ∀ (fuel : Nat) (store : Store) (p : Plan) (res : SafeRemoveResult)
      (store2 : Store),
      confirmPlan fuel store p = some (res, store2) →
      (res.removed.map mrKey).Nodup
      ∧ mrKey (p.collectionName, p.rootId) ∈ res.removed.map mrKey
      ∧ res.updated ≠ some []
      ∧ (∀ u, res.updated = some u → ∀ x ∈ u, mrKey x ∉ res.removed.map mrKey)
      ∧ (p.confirmQueue = [] → p.updateQueue = [] →
          res = ⟨[(p.collectionName, p.rootId)], none⟩
          ∧ store2 = removeRecord store p.collectionName p.rootId) := by
  intro fuel store p res store2 h
  cases fuel with
  | zero => simp [confirmPlan] at h
  | succ n =>
    cases p with
    | mk c rid sr su cq uq =>
      obtain ⟨acc, store1, hcc, hrem, hupd, hstore⟩ :=
        confirmPlan_succ_eq n store c rid sr su cq uq res store2 h
      refine ⟨?_, ?_, ?_, ?_, ?_⟩
      · rw [hrem]
        exact (dedupeRemoved_key_nodup _ _).1
      · rw [hrem]
        simp only [Plan.collectionName, Plan.rootId]
        exact dedupeRemoved_key_mem _ _ _ (by simp) (by simp)
      · rw [hupd]
        cases hL : (dedupeUpdated (runUpdateQueue uq store1 acc).1.updated
            ((acc.removed ++ [(c, rid)]).map mrKey) []).isEmpty with
        | true => simp
        | false =>
            simp only [Bool.false_eq_true, if_false, ne_eq, Option.some.injEq]
            intro hnil
            rw [hnil] at hL
            simp at hL
      · intro u hu x hx hmem
        rw [hupd] at hu
        by_cases hL : (dedupeUpdated (runUpdateQueue uq store1 acc).1.updated
            ((acc.removed ++ [(c, rid)]).map mrKey) []).isEmpty
        · rw [if_pos hL] at hu
          cases hu
        · rw [if_neg hL] at hu
          have hux : x ∈ dedupeUpdated (runUpdateQueue uq store1 acc).1.updated
              ((acc.removed ++ [(c, rid)]).map mrKey) [] := by
            rw [Option.some.injEq] at hu
            rw [← hu] at hx
            exact hx
          have hnk := ((dedupeUpdated_props _ _ _).2 x hux).1
          rw [hrem] at hmem
          obtain ⟨y, hy, hyk⟩ := List.mem_map.mp hmem
          exact hnk (by
            rw [← hyk]
            exact List.mem_map_of_mem mrKey (dedupeRemoved_subset _ _ hy))
      · intro hcq huq
        simp only [Plan.confirmQueue] at hcq
        simp only [Plan.updateQueue] at huq
        subst hcq
        subst huq
        simp only [confirmChildren, Option.some.injEq, Prod.mk.injEq] at hcc
        obtain ⟨hacc, hst1⟩ := hcc
        subst hacc
        subst hst1
        simp only [runUpdateQueue] at hrem hupd hstore
        constructor
        · cases res with
          | mk rr ru =>
              simp only [SafeRemoveResult.mk.injEq]
              constructor
              · simpa [dedupeRemoved] using hrem
              · simpa [dedupeUpdated] using hupd
        · simpa [Plan.collectionName, Plan.rootId, runUpdateQueue] using hstore

/-- Witness for the C5 theorem at a concrete confirmed plan. -/
theorem c5_theorem_witness :
    (([("x", "x1")] : List MutationReport).map mrKey).Nodup := by
  have h : confirmPlan 2 [] (Plan.mk "x" "x1" [] [] [] [])
      = some (⟨[("x", "x1")], none⟩, []) := by rfl
  exact (c5_theorem 2 [] _ _ _ h).1

/-- Claim C1, counterexample: on the fully populated diamond whose relations
are all primary-to-secondary with scalar reciprocal fields, safeRemove
stages the d1 record twice in stagedForRemove, once per path, so the staged
list has a duplicate (collection, id) entry, contradicting the claim that it
has none. -/
theorem c1_counterexample :
    (safeRemove diamondGraph 10 diamondStore "a" "a1").toOption.map
        (fun x => x.1.stagedForRemove)
      = some [("b", "b1"), ("d", "d1"), ("c", "c1"), ("d", "d1")]
    ∧ ¬ ([("b", "b1"), ("d", "d1"), ("c", "c1"), ("d", "d1")]
        : List MutationReport).Nodup := by
  exact ⟨rfl, by decide⟩

/-- Claim C4, evaluation at the failing input: a secondary-to-primary
relation with many-to-one cardinality is silently skipped by safeRemove
(the plan succeeds with nothing staged and nothing queued, and the store is
untouched), while the other unsupported combinations do raise: a
primary-to-secondary relation with one-to-many cardinality, a unilateral
relation, and a primary-to-primary relation each fail loudly. -/
theorem c4_code_evaluation :
    (safeRemove c4Graph 5 c4Store "s" "s1").toOption.map
        (fun x => (x.1.stagedForRemove, x.1.stagedForUpdate,
          x.1.confirmQueue.length, x.1.updateQueue.length, x.2))
      = some ([], [], 0, 0, c4Store)
    ∧ plannerError (safeRemove c4GraphB 5 c4Store "s" "s1")
      = some "Not supported relation cardinality type: one-to-many"
    ∧ plannerError (safeRemove c4GraphC 5 c4Store "s" "s1")
      = some "Not supported relation dependencyKind: primary-unilateral"
    ∧ plannerError (safeRemove c4GraphD 5 c4Store "s" "s1")
      = some "Not supported relation dependencyKind: primary-to-primary" := by
  exact ⟨rfl, rfl, rfl, rfl⟩

/-- Claim C5, counterexample: deduplication uses the concatenated string
key, not the composite pair key. In the colliding configuration the record
bc of collection a is staged for removal and is physically deleted by
confirm, yet the removed report omits it because its concatenated key abc
coincides with the key of the earlier entry (ab, c); deduplication by the
composite pair key, as the claim states it, would have kept both entries. -/
theorem c5_counterexample :
    (safeRemove collideGraph 10 collideStore "r" "r1").toOption.map
        (fun x => x.1.stagedForRemove)
      = some [("ab", "c"), ("a", "bc")]
    ∧ ((safeRemove collideGraph 10 collideStore "r" "r1").toOption.bind
        (fun x => confirmPlan 10 x.2 x.1)).map (fun y => y.1.removed)
      = some [("ab", "c"), ("r", "r1")]
    ∧ ((safeRemove collideGraph 10 collideStore "r" "r1").toOption.bind
        (fun x => confirmPlan 10 x.2 x.1)).map (fun y => lookupStore y.2 "a")
      = some (some [])
    ∧ dedupeByPairSpec [("ab", "c"), ("a", "bc"), ("r", "r1")] []
      = [("ab", "c"), ("a", "bc"), ("r", "r1")] := by
  exact ⟨rfl, rfl, rfl, rfl⟩

/-- Claim C2: for a declared pair of collections where a source field
carries a foreign-key brand naming the target and the target object schema
declares the conventional reciprocal key (source name suffixed Id for the
scalar reciprocal or Ids for the array reciprocal, per section 4.1 of the
spec), the analysis emits exactly one bilateral relation whose
dependencyKind follows the optionality table (primary-to-primary for
optional and optional, primary-to-secondary for optional source only,
secondary-to-primary for optional reciprocal only) and fails with the
forbidden secondary-to-secondary error when both are required; the
cardinalityType is the cross product of source scalar-vs-array and
reciprocal key form, and the field is never classified unilateral. -/
theorem c2_theorem
    (src tgt k : String) (idP idP2 : PropSchema)
    (recipBody : PropBody) (recipOpt : Bool) (recipDescr : Option String)
    (srcOpt isArr recipMany : Bool) (descr : Option String)
    (h1 : ¬ (k = "id")) (h2 : ¬ (src = tgt))
    (h3 : ¬ ("id" = src ++ "Id")) (h4 : ¬ ("id" = src ++ "Ids"))
    (h5 : ¬ (src ++ "Ids" = src ++ "Id")) :
    getCollectionForeignKeyRelations
      [(src, .object [("id", idP),
        (k, ⟨(if isArr then .arr (.prim ⟨.str, some (FOREIGN_KEY_BRAND_TYPE, tgt)⟩)
            else .prim ⟨.str, some (FOREIGN_KEY_BRAND_TYPE, tgt)⟩), srcOpt, descr⟩)]),
       (tgt, .object [("id", idP2),
        (src ++ (if recipMany then "Ids" else "Id"),
          ⟨recipBody, recipOpt, recipDescr⟩)])]
      src
    = (if srcOpt && recipOpt then
        .ok [.bilateral ⟨.primaryToPrimary,
          (if isArr then (if recipMany then .manyToMany else .manyToOne)
            else (if recipMany then .oneToMany else .oneToOne)),
          src, k, tgt, src ++ (if recipMany then "Ids" else "Id")⟩]
      else if srcOpt then
        .ok [.bilateral ⟨.primaryToSecondary,
          (if isArr then (if recipMany then .manyToMany else .manyToOne)
            else (if recipMany then .oneToMany else .oneToOne)),
          src, k, tgt, src ++ (if recipMany then "Ids" else "Id")⟩]
      else if recipOpt then
        .ok [.bilateral ⟨.secondaryToPrimary,
          (if isArr then (if recipMany then .manyToMany else .manyToOne)
            else (if recipMany then .oneToMany else .oneToOne)),
          src, k, tgt, src ++ (if recipMany then "Ids" else "Id")⟩]
      else .error (.secondaryToSecondaryRelationIsForbidden src k)) := by
  have h2s : ¬ (tgt = src) := fun e => h2 e.symm
  by_cases hdescr : descr = some IGNORE_RELATION <;>
    cases isArr <;> cases recipMany <;> cases srcOpt <;> cases recipOpt <;>
      simp [getCollectionForeignKeyRelations, lookupModel, variantsOf,
        checkIdPresence, lookupProp, scanVariants, scanFields, processField,
        classifyField, extractForeignKeyBrand, FOREIGN_KEY_BRAND_TYPE,
        classifyBranded, Except.map, mkBilateralRelation, checkBrandsPool, checkBrand,
        IGNORE_RELATION, checkVariantsHaveReciprocal,
        h1, h2, h3, h4, h5, h2s, hdescr]

/-- Witness for the C2 theorem: the user and profile example of the spec,
an optional scalar foreign key with a required scalar reciprocal, classified
bilateral primary-to-secondary one-to-one. -/
theorem c2_theorem_witness :
    getCollectionForeignKeyRelations
      [("user", .object [("id", ⟨.prim ⟨.str, some ("idFor", "user")⟩, false, none⟩),
        ("profileRef", ⟨.prim ⟨.str, some ("idFor", "profile")⟩, true, none⟩)]),
       ("profile", .object [("id", ⟨.prim ⟨.str, some ("idFor", "profile")⟩, false, none⟩),
        ("userId", ⟨.prim ⟨.str, none⟩, false, none⟩)])]
      "user"
    = .ok [.bilateral ⟨.primaryToSecondary, .oneToOne,
        "user", "profileRef", "profile", "userId"⟩] := by
  have h := c2_theorem "user" "profile" "profileRef"
    ⟨.prim ⟨.str, some ("idFor", "user")⟩, false, none⟩
    ⟨.prim ⟨.str, some ("idFor", "profile")⟩, false, none⟩
    (.prim ⟨.str, none⟩) false none true false false none
    (by decide) (by decide) (by decide) (by decide) (by decide)
  simpa using h

/-- Claim C3: a foreign-key-branded non-id field whose target collection is
declared but no variant of the target schema carries either conventional
reciprocal key makes the analysis fail with the orphan-relation error
carrying the target collection, the source collection and the source field
key, unless the field carries the ignore-relation description marker, in
which case the analysis succeeds. -/
theorem c3_theorem
    (src tgt k : String) (idP : PropSchema) (tgtSchema : ModelSchema)
    (srcOpt isArr : Bool) (descr : Option String)
    (h1 : ¬ (k = "id")) (h2 : ¬ (src = tgt))
    (hvar : variantsOf tgtSchema ≠ [])
    (hlack : ∀ v ∈ variantsOf tgtSchema,
      lookupProp v (src ++ "Id") = none ∧ lookupProp v (src ++ "Ids") = none) :
    (descr ≠ some IGNORE_RELATION →
      getCollectionForeignKeyRelations
        [(src, .object [("id", idP),
          (k, ⟨(if isArr then .arr (.prim ⟨.str, some (FOREIGN_KEY_BRAND_TYPE, tgt)⟩)
              else .prim ⟨.str, some (FOREIGN_KEY_BRAND_TYPE, tgt)⟩), srcOpt, descr⟩)]),
         (tgt, tgtSchema)] src
      = .error (.noUserDefinedRelation tgt src k))
    ∧ (descr = some IGNORE_RELATION →
      (getCollectionForeignKeyRelations
        [(src, .object [("id", idP),
          (k, ⟨(if isArr then .arr (.prim ⟨.str, some (FOREIGN_KEY_BRAND_TYPE, tgt)⟩)
              else .prim ⟨.str, some (FOREIGN_KEY_BRAND_TYPE, tgt)⟩), srcOpt, descr⟩)]),
         (tgt, tgtSchema)] src).toOption.isSome = true) := by
  have h2s : ¬ (tgt = src) := fun e => h2 e.symm
  cases tgtSchema with
  | object tof =>
      have hl := hlack tof (by simp [variantsOf])
      constructor
      · intro hnd
        cases isArr <;>
          simp [getCollectionForeignKeyRelations, lookupModel, variantsOf,
            checkIdPresence, lookupProp, scanVariants, scanFields, processField,
            classifyField, extractForeignKeyBrand, FOREIGN_KEY_BRAND_TYPE,
            classifyBranded, Except.map, checkBrandsPool, checkBrand,
            checkVariantsHaveReciprocal, h1, h2, h2s, hnd, hl.1, hl.2]
      · intro hd
        cases isArr <;>
          simp [getCollectionForeignKeyRelations, lookupModel, variantsOf,
            checkIdPresence, lookupProp, scanVariants, scanFields, processField,
            classifyField, extractForeignKeyBrand, FOREIGN_KEY_BRAND_TYPE,
            classifyBranded, Except.map, checkBrandsPool, checkBrand, IGNORE_RELATION,
            Except.toOption, h1, h2, h2s, hd, hl.1, hl.2]
  | union ofs =>
      obtain ⟨v, rest, hv⟩ : ∃ v rest, ofs = v :: rest := by
        cases ofs with
        | nil => exact absurd rfl hvar
        | cons a b => exact ⟨a, b, rfl⟩
      subst hv
      have hl := hlack v (by simp [variantsOf])
      constructor
      · intro hnd
        cases isArr <;>
          simp [getCollectionForeignKeyRelations, lookupModel, variantsOf,
            checkIdPresence, lookupProp, scanVariants, scanFields, processField,
            classifyField, extractForeignKeyBrand, FOREIGN_KEY_BRAND_TYPE,
            classifyBranded, Except.map, checkBrandsPool, checkBrand,
            checkVariantsHaveReciprocal, h1, h2, h2s, hnd, hl.1, hl.2]
      · intro hd
        cases isArr <;>
          simp [getCollectionForeignKeyRelations, lookupModel, variantsOf,
            checkIdPresence, lookupProp, scanVariants, scanFields, processField,
            classifyField, extractForeignKeyBrand, FOREIGN_KEY_BRAND_TYPE,
            classifyBranded, Except.map, checkBrandsPool, checkBrand, IGNORE_RELATION,
            Except.toOption, h1, h2, h2s, hd, hl.1, hl.2]

/-- Witness for the C3 theorem: a required scalar foreign key to a target
with no reciprocal field fails with the orphan-relation error naming the
target, the source and the field. -/
theorem c3_theorem_witness :
    getCollectionForeignKeyRelations
      [("post", .object [("id", ⟨.prim ⟨.str, some ("idFor", "post")⟩, false, none⟩),
        ("authorRef", ⟨.prim ⟨.str, some ("idFor", "author")⟩, false, none⟩)]),
       ("author", .object [("id", ⟨.prim ⟨.str, some ("idFor", "author")⟩, false, none⟩)])]
      "post"
    = .error (.noUserDefinedRelation "author" "post" "authorRef") := by
  have h := c3_theorem "post" "author" "authorRef"
    ⟨.prim ⟨.str, some ("idFor", "post")⟩, false, none⟩
    (.object [("id", ⟨.prim ⟨.str, some ("idFor", "author")⟩, false, none⟩)])
    false false none (by decide) (by decide) (by decide) (by decide)
  exact h.1 (by decide)

/-- Claim C8, amended: a non-id field whose foreign-key brand names its own
collection makes the analysis fail with the forbidden recursive
self-relation error, provided the field does not carry the ignore-relation
description marker (with the marker the analysis succeeds, as the
counterexample shows) and the field is not itself named as the conventional
reciprocal key of its own collection (in which case the classification of
the reciprocal pair can raise the forbidden secondary-to-secondary error
first). -/
theorem c8_theorem
    (c k : String) (idP : PropSchema) (srcOpt : Bool) (descr : Option String)
    (h1 : ¬ (k = "id"))
    (h3 : ¬ ("id" = c ++ "Id")) (h4 : ¬ ("id" = c ++ "Ids"))
    (h5 : ¬ (k = c ++ "Id")) (h6 : ¬ (k = c ++ "Ids"))
    (hdescr : descr ≠ some IGNORE_RELATION) :
    getCollectionForeignKeyRelations
      [(c, .object [("id", idP),
        (k, ⟨.prim ⟨.str, some (FOREIGN_KEY_BRAND_TYPE, c)⟩, srcOpt, descr⟩)])] c
    = .error (.forbiddenRecursiveRelation c k) := by
  have hdescr2 : ¬ (descr = some "ignore-relation") := by
    simpa [IGNORE_RELATION] using hdescr
  simp [getCollectionForeignKeyRelations, lookupModel, variantsOf,
    checkIdPresence, lookupProp, scanVariants, scanFields, processField,
    classifyField, extractForeignKeyBrand, FOREIGN_KEY_BRAND_TYPE,
    classifyBranded, Except.map, checkBrandsPool, checkBrand, IGNORE_RELATION,
    h1, h3, h4, h5, h6, hdescr2]

/-- Witness for the C8 theorem: a self-branded field without the ignore
marker fails with the forbidden recursive self-relation error. -/
theorem c8_theorem_witness :
    getCollectionForeignKeyRelations
      [("a", .object [("id", ⟨.prim ⟨.str, some ("idFor", "a")⟩, false, none⟩),
        ("selfRef", ⟨.prim ⟨.str, some ("idFor", "a")⟩, false, none⟩)])] "a"
    = .error (.forbiddenRecursiveRelation "a" "selfRef") := by
  exact c8_theorem "a" "selfRef" ⟨.prim ⟨.str, some ("idFor", "a")⟩, false, none⟩
    false none (by decide) (by decide) (by decide) (by decide) (by decide)
    (by decide)

/-- Claim C8, counterexample: a non-id field whose foreign-key brand names
its own collection is accepted by the analyzer when the field carries the
ignore-relation description marker; the analysis succeeds and even emits a
unilateral relation for the field instead of failing with the forbidden
recursive self-relation error. -/
theorem c8_counterexample :
    getCollectionForeignKeyRelations c8Models "a"
      = .ok [.unilateral ⟨.secondaryUnilateral, .one, "a", "selfRef", "a"⟩] := by
  rfl

/-- Claim C9, evaluation at the failing input: the analyzer skips fields
named id during the relation scan, so a collection whose id field carries a
brand naming a different collection is accepted; analysis succeeds instead
of failing with a configuration error. -/
theorem c9_code_evaluation :
    getCollectionForeignKeyRelations c9Models "a" = .ok [] := by
  rfl

end Repotox
